import Mathlib

/-!
# Live-call broadcast service: shallow embedding and verification

This file embeds the live-call synchronization subsystem of the Vaani
conversational-AI dashboard (the `LiveCallsSocketService` class of the
backend) in Lean 4 and proves the specified properties of its snapshot
builder, change detector, poll scheduler and broadcaster.

Modelling conventions:
* Upstream conversation records are a structure mirroring the fields the
  service reads (`conversation_id`, `agent_id`, `agent_name`, `status`,
  `start_time_unix_secs`, and the `metadata` fields it dereferences).
  Optional / possibly-missing JavaScript fields become `Option`.
* JavaScript's `||` fallback chains treat `""` and `0` as falsy; the
  helpers `truthyString` / `truthyInt` reproduce that.
* Times are integers in milliseconds (`Date.now()`); `Math.floor(x / 1000)`
  on an integer-valued difference is integer floor division `Int.fdiv`.
* The stateful service becomes explicit state passing: `ServiceState`
  carries the three mutable fields (`pollInterval` as the boolean
  `pollActive`, `connectedClients`, `previousLiveCalls`), events carry the
  outcome of the (external, I/O) upstream fetch as a `FetchResult`, and
  each handler returns the next state together with the list of socket
  emissions it performs (`Emit` distinguishes single-client `socket.emit`
  from all-client `io.emit` broadcasts).
-/

namespace LiveCalls

/-- An upstream conversation record, with exactly the fields the service
reads.  `metadata_caller_number`, `metadata_phone_call_external_number` and
`metadata_start_time_unix_secs` flatten the optional `metadata` object
(`conv.metadata?.x` is `none` when either `metadata` or `x` is absent). -/
structure Conversation where
  conversation_id : String
  agent_id : String
  agent_name : Option String
  status : String
  start_time_unix_secs : Option Int
  metadata_caller_number : Option String
  metadata_phone_call_external_number : Option String
  metadata_start_time_unix_secs : Option Int
deriving DecidableEq, Repr

/-- The normalized record broadcast to clients.  `startTime` is a
point-in-time timestamp in milliseconds since the epoch; `duration` is in
whole seconds. -/
structure LiveCallRecord where
  id : String
  agentId : String
  agentName : String
  phoneNumber : String
  status : String
  duration : Int
  startTime : Int
deriving DecidableEq, Repr

/-- JavaScript `||` on an optional string: `""`, like `undefined`, falls
through to the next alternative. -/
def truthyString (o : Option String) : Option String :=
  match o with
  | some "" => none
  | some s => some s
  | none => none

/-- JavaScript `||` on an optional number: `0`, like `undefined`, falls
through to the next alternative. -/
def truthyInt (o : Option Int) : Option Int :=
  match o with
  | some 0 => none
  | some n => some n
  | none => none

/-- The active-status whitelist used by the snapshot builder
(`isActive` in `fetchLiveCalls`). -/
def isActiveStatus (s : String) : Bool :=
  s = "in_progress" || s = "active" || s = "ongoing" || s = "in-progress"
    || s = "initiated"

/-- The ended-status blacklist used by the snapshot builder
(`isEnded` in `fetchLiveCalls`). -/
def isEndedStatus (s : String) : Bool :=
  s = "done" || s = "completed" || s = "failed" || s = "cancelled"
    || s = "terminated" || s = "ended" || s = "disconnected" || s = "hung_up"
    || s = "finished" || s = "closed"

/-- The predicate of the first filter of `fetchLiveCalls`:
`isActive && !isEnded`. -/
def shouldShow (conv : Conversation) : Bool :=
  isActiveStatus conv.status && !isEndedStatus conv.status

/-- `MAX_CALL_DURATION_MS = 15 * 60 * 1000` — the staleness threshold. -/
def MAX_CALL_DURATION_MS : Int := 15 * 60 * 1000

/-- The `.map` stage of `fetchLiveCalls`: normalize one surviving
conversation into a `LiveCallRecord` at snapshot-build time `now`
(milliseconds).

```js
const phoneNumber = conv.metadata?.caller_number
  || conv.metadata?.phone_call?.external_number || 'Unknown';
const startTimeUnix = conv.start_time_unix_secs
  || conv.metadata?.start_time_unix_secs;
const startTime = startTimeUnix ? new Date(startTimeUnix * 1000) : new Date();
const duration = Math.floor((now - startTime.getTime()) / 1000);
```
-/
def toLiveCallRecord (now : Int) (conv : Conversation) : LiveCallRecord :=
  let phoneNumber :=
    ((truthyString conv.metadata_caller_number).orElse
      (fun _ => truthyString conv.metadata_phone_call_external_number)).getD
      "Unknown"
  let startTimeUnix :=
    (truthyInt conv.start_time_unix_secs).orElse
      (fun _ => truthyInt conv.metadata_start_time_unix_secs)
  let startTime :=
    match startTimeUnix with
    | some n => n * 1000
    | none => now
  { id := conv.conversation_id
    agentId := conv.agent_id
    agentName := (truthyString conv.agent_name).getD "AI Agent"
    phoneNumber := phoneNumber
    status := conv.status
    duration := (now - startTime).fdiv 1000
    startTime := startTime }

/-- The pure core of `fetchLiveCalls`: filter the fetched conversations to
the active ones, normalize each, and drop records older than the staleness
threshold.  `now` is the single `Date.now()` read at the top of the
function. -/
def fetchLiveCalls (now : Int) (conversations : List Conversation) :
    List LiveCallRecord :=
  ((conversations.filter shouldShow).map (toLiveCallRecord now)).filter
    (fun call => ! decide (now - call.startTime > MAX_CALL_DURATION_MS))

/-- `hasDataChanged(newCalls)` compared against the stored
`previousLiveCalls` (here an explicit argument `prev`).  A JavaScript `Set`
of ids is the deduplicated id list; its `size` is that list's length. -/
def hasDataChanged (newCalls prev : List LiveCallRecord) : Bool :=
  if newCalls.length ≠ prev.length then
    true
  else
    let newCallIds := (newCalls.map (fun c => c.id)).dedup
    let prevCallIds := (prev.map (fun c => c.id)).dedup
    if newCallIds.length ≠ prevCallIds.length then
      true
    else if newCallIds.any (fun id => ! prevCallIds.contains id) then
      true
    else
      newCalls.any (fun newCall =>
        match prev.find? (fun c => c.id == newCall.id) with
        | some prevCall => prevCall.status ≠ newCall.status
        | none => false)

/-- The outcome of one upstream fetch (`elevenLabsService.getConversations`
plus the `success` check): either the list of conversation records, or the
message of the raised error.  The fetch itself is external I/O, so each
event that triggers a fetch carries its outcome as an input. -/
inductive FetchResult where
  | ok : List Conversation → FetchResult
  | err : String → FetchResult
deriving DecidableEq, Repr

/-- One socket emission.  `updateToClient` / `errorToClient` are
`socket.emit` to a single client (the newly connected one);
`updateBroadcast` / `errorBroadcast` are `io.emit`, delivered to every
connected client. -/
inductive Emit where
  | updateToClient : List LiveCallRecord → Emit
  | errorToClient : String → Emit
  | updateBroadcast : List LiveCallRecord → Emit
  | errorBroadcast : String → Emit
deriving DecidableEq, Repr

/-- The mutable fields of `LiveCallsSocketService`: `pollActive` stands for
`pollInterval !== null` (the repeating timer being armed). -/
structure ServiceState where
  pollActive : Bool
  connectedClients : Nat
  previousLiveCalls : List LiveCallRecord
deriving DecidableEq, Repr

/-- The constructor's initial state: no timer, no clients, empty previous
snapshot. -/
def initialState : ServiceState :=
  { pollActive := false, connectedClients := 0, previousLiveCalls := [] }

/-- `fetchAndBroadcastLiveCalls`: build a snapshot; on success broadcast it
(and store it as the new previous snapshot) only if `hasDataChanged`; on
fetch failure broadcast a `live-calls-error` event and leave the state
untouched. -/
def fetchAndBroadcastLiveCalls (s : ServiceState) (fr : FetchResult)
    (now : Int) : ServiceState × List Emit :=
  match fr with
  | .ok conversations =>
    let liveCalls := fetchLiveCalls now conversations
    if hasDataChanged liveCalls s.previousLiveCalls then
      ({ s with previousLiveCalls := liveCalls }, [.updateBroadcast liveCalls])
    else
      (s, [])
  | .err msg => (s, [.errorBroadcast msg])

/-- `sendLiveCallsToClient`: build a snapshot and send it to one specific
client; on failure send a `live-calls-error` event to that client.  It
never touches the service state. -/
def sendLiveCallsToClient (s : ServiceState) (fr : FetchResult)
    (now : Int) : ServiceState × List Emit :=
  match fr with
  | .ok conversations => (s, [.updateToClient (fetchLiveCalls now conversations)])
  | .err msg => (s, [.errorToClient msg])

/-- `startPolling`: no-op when the timer is already armed; otherwise run
one immediate `fetchAndBroadcastLiveCalls` cycle and arm the repeating
timer. -/
def startPolling (s : ServiceState) (fr : FetchResult)
    (now : Int) : ServiceState × List Emit :=
  if s.pollActive then
    (s, [])
  else
    let r := fetchAndBroadcastLiveCalls s fr now
    ({ r.1 with pollActive := true }, r.2)

/-- The external events the service reacts to.  `connect` carries the fetch
outcome of the per-client send and (used only when the first client
connects) the fetch outcome of `startPolling`'s immediate cycle;
`refresh` is the `refresh-live-calls` handler; `tick` is one firing of the
armed interval timer. -/
inductive Event where
  | connect : FetchResult → FetchResult → Event
  | disconnect : Event
  | refresh : FetchResult → Event
  | tick : FetchResult → Event

/-- One step of the service: the handler the `connection` callback
registers for the event, as a function of the current state, producing the
next state and the emissions performed. -/
def step (s : ServiceState) (e : Event) (now : Int) :
    ServiceState × List Emit :=
  match e with
  | .connect frClient frPoll =>
    let s1 := { s with connectedClients := s.connectedClients + 1 }
    let p := sendLiveCallsToClient s1 frClient now
    if p.1.connectedClients = 1 then
      let q := startPolling p.1 frPoll now
      (q.1, p.2 ++ q.2)
    else
      p
  | .disconnect =>
    let s1 := { s with connectedClients := s.connectedClients - 1 }
    if s1.connectedClients = 0 then
      ({ s1 with pollActive := false }, [])
    else
      (s1, [])
  | .refresh fr => fetchAndBroadcastLiveCalls s fr now
  | .tick fr => fetchAndBroadcastLiveCalls s fr now

/-- When an event can fire: a `disconnect` or a client-initiated `refresh`
presupposes a connected client, and a timer `tick` presupposes that the
timer is armed. -/
def enabled (s : ServiceState) : Event → Prop
  | .connect _ _ => True
  | .disconnect => 1 ≤ s.connectedClients
  | .refresh _ => 1 ≤ s.connectedClients
  | .tick _ => s.pollActive = true

/-- The states the service can be in: the initial state and everything
reachable from it by enabled events. -/
inductive Reachable : ServiceState → Prop where
  | init : Reachable initialState
  | step : ∀ (s : ServiceState) (e : Event) (now : Int),
      Reachable s → enabled s e → Reachable (step s e now).1

/-! ## Concrete sample data

Small concrete inputs used to instantiate the proved properties. -/

/-- An in-progress upstream conversation started at epoch second 1. -/
def sampleConv : Conversation :=
  { conversation_id := "c2"
    agent_id := "a1"
    agent_name := none
    status := "in_progress"
    start_time_unix_secs := some 1
    metadata_caller_number := none
    metadata_phone_call_external_number := none
    metadata_start_time_unix_secs := none }

/-- An active upstream conversation whose reported start time (epoch second
10) lies in the future of a snapshot built at time 0 ms. -/
def futureConv : Conversation :=
  { conversation_id := "c1"
    agent_id := "a1"
    agent_name := some "Agent"
    status := "active"
    start_time_unix_secs := some 10
    metadata_caller_number := none
    metadata_phone_call_external_number := none
    metadata_start_time_unix_secs := none }

/-- An initiated upstream conversation with both start-time fields absent. -/
def noStartConv : Conversation :=
  { conversation_id := "c3"
    agent_id := "a2"
    agent_name := none
    status := "initiated"
    start_time_unix_secs := none
    metadata_caller_number := none
    metadata_phone_call_external_number := none
    metadata_start_time_unix_secs := none }

/-- A sample live-call record. -/
def rec1 : LiveCallRecord :=
  { id := "a", agentId := "x", agentName := "n", phoneNumber := "p"
    status := "in_progress", duration := 5, startTime := 0 }

/-- `rec1` with only the timing fields (`duration`, `startTime`) changed. -/
def rec1Timing : LiveCallRecord :=
  { rec1 with duration := 99, startTime := 123 }

/-! ## Helper lemmas -/

/-- If mapping `f` over `l` yields a duplicate-free list, then `f` is
injective on the elements of `l`. -/
theorem nodup_map_inj {α : Type} {β : Type} (f : α → β) :
    ∀ (l : List α), (l.map f).Nodup →
      ∀ a, a ∈ l → ∀ b, b ∈ l → f a = f b → a = b := by
  intro l
  induction l with
  | nil => intro _ a ha; cases ha
  | cons x xs ih =>
    intro hnd a ha b hb hfab
    rw [List.map_cons, List.nodup_cons] at hnd
    rcases hnd with ⟨hx, hxs⟩
    rcases List.mem_cons.mp ha with ha1 | ha2
    · rcases List.mem_cons.mp hb with hb1 | hb2
      · rw [ha1, hb1]
      · exfalso
        apply hx
        rw [← ha1, hfab]
        exact List.mem_map_of_mem f hb2
    · rcases List.mem_cons.mp hb with hb1 | hb2
      · exfalso
        apply hx
        rw [← hb1, ← hfab]
        exact List.mem_map_of_mem f ha2
      · exact ih hxs a ha2 b hb2 hfab

/-- Two duplicate-free lists where the first is contained in the second and
at least as long have the same members. -/
theorem mem_iff_of_nodup_subset {α : Type} [DecidableEq α]
    {l₁ l₂ : List α} (h₁ : l₁.Nodup) (h₂ : l₂.Nodup)
    (hsub : ∀ a, a ∈ l₁ → a ∈ l₂) (hlen : l₂.length ≤ l₁.length) :
    ∀ a, a ∈ l₁ ↔ a ∈ l₂ := by
  have hfin : l₁.toFinset ⊆ l₂.toFinset := by
    intro a ha
    exact List.mem_toFinset.mpr (hsub a (List.mem_toFinset.mp ha))
  have hcard : l₂.toFinset.card ≤ l₁.toFinset.card := by
    rw [List.toFinset_card_of_nodup h₁, List.toFinset_card_of_nodup h₂]
    exact hlen
  have heq : l₁.toFinset = l₂.toFinset :=
    Finset.eq_of_subset_of_card_le hfin hcard
  intro a
  constructor
  · exact hsub a
  · intro ha
    exact List.mem_toFinset.mp (heq ▸ List.mem_toFinset.mpr ha)

/-- Membership characterization of the snapshot builder: a record is in
the snapshot exactly when it is the normalization of a fetched
conversation that passed the active/ended status filter, and its age does
not exceed the staleness threshold. -/
theorem mem_fetchLiveCalls {now : Int} {conversations : List Conversation}
    {r : LiveCallRecord} :
    r ∈ fetchLiveCalls now conversations ↔
      (∃ c, c ∈ conversations ∧ shouldShow c = true ∧
        toLiveCallRecord now c = r) ∧
      now - r.startTime ≤ MAX_CALL_DURATION_MS := by
  unfold fetchLiveCalls
  rw [List.mem_filter, List.mem_map]
  constructor
  · rintro ⟨⟨c, hc, hcr⟩, hage⟩
    rw [List.mem_filter] at hc
    refine ⟨⟨c, hc.1, hc.2, hcr⟩, ?_⟩
    simpa [not_lt] using hage
  · rintro ⟨⟨c, hc, hshow, hcr⟩, hage⟩
    refine ⟨⟨c, List.mem_filter.mpr ⟨hc, hshow⟩, hcr⟩, ?_⟩
    simpa [not_lt] using hage

/-- Normalization preserves the upstream status. -/
theorem toLiveCallRecord_status (now : Int) (c : Conversation) :
    (toLiveCallRecord now c).status = c.status := rfl

/-- The change detector returns `true` exactly when the lengths differ,
the id-sets differ in membership, or some id present on both sides has
different statuses — for snapshots satisfying the data-model invariant
that ids are unique within a snapshot. -/
theorem hasDataChanged_true_iff (next prev : List LiveCallRecord)
    (hn : (next.map (fun c => c.id)).Nodup)
    (hp : (prev.map (fun c => c.id)).Nodup) :
    hasDataChanged next prev = true ↔
      (next.length ≠ prev.length ∨
       ¬(∀ i : String, i ∈ next.map (fun c => c.id) ↔
          i ∈ prev.map (fun c => c.id)) ∨
       ∃ nc, nc ∈ next ∧ ∃ pc, pc ∈ prev ∧ pc.id = nc.id ∧
         pc.status ≠ nc.status) := by
  unfold hasDataChanged
  by_cases hlen : next.length = prev.length
  · rw [if_neg (by simp [hlen])]
    have hdn : (next.map (fun c => c.id)).dedup = next.map (fun c => c.id) :=
      List.dedup_eq_self.mpr hn
    have hdp : (prev.map (fun c => c.id)).dedup = prev.map (fun c => c.id) :=
      List.dedup_eq_self.mpr hp
    rw [hdn, hdp]
    rw [if_neg (by simp [hlen])]
    by_cases hsub : ∀ i, i ∈ next.map (fun c => c.id) →
        i ∈ prev.map (fun c => c.id)
    · rw [if_neg ?hany]
      case hany =>
        simp only [List.any_eq_true, Bool.not_eq_true', not_exists]
        push_neg
        intro i hi
        simpa using hsub i hi
      have hiff : ∀ i : String, i ∈ next.map (fun c => c.id) ↔
          i ∈ prev.map (fun c => c.id) :=
        mem_iff_of_nodup_subset hn hp hsub
          (by simp [hlen])
      constructor
      · intro hany
        rw [List.any_eq_true] at hany
        rcases hany with ⟨nc, hnc, hmatch⟩
        rcases hfind : prev.find? (fun c => c.id == nc.id) with _ | pc
        · rw [hfind] at hmatch; simp at hmatch
        · rw [hfind] at hmatch
          have hpc : pc ∈ prev := List.mem_of_find?_eq_some hfind
          have hid : pc.id = nc.id := by
            have := List.find?_some hfind
            exact eq_of_beq this
          have hst : pc.status ≠ nc.status := by simpa using hmatch
          exact Or.inr (Or.inr ⟨nc, hnc, pc, hpc, hid, hst⟩)
      · rintro (h | h | ⟨nc, hnc, pc, hpc, hid, hst⟩)
        · exact absurd hlen h
        · exact absurd hiff h
        · rw [List.any_eq_true]
          refine ⟨nc, hnc, ?_⟩
          have hsome : (prev.find? (fun c => c.id == nc.id)).isSome = true := by
            rw [List.find?_isSome]
            exact ⟨pc, hpc, by simp [hid]⟩
          rcases hfind : prev.find? (fun c => c.id == nc.id) with _ | pc'
          · rw [hfind] at hsome; simp at hsome
          · have hpc' : pc' ∈ prev := List.mem_of_find?_eq_some hfind
            have hbeq := List.find?_some hfind
            have hid' : pc'.id = nc.id := eq_of_beq (by simpa using hbeq)
            have : pc' = pc :=
              nodup_map_inj (fun c => c.id) prev hp pc' hpc' pc hpc
                (by show pc'.id = pc.id; rw [hid', hid])
            subst this
            rw [hfind]
            simpa using hst
    · rw [if_pos ?hany]
      case hany =>
        push_neg at hsub
        rcases hsub with ⟨i, hi, hni⟩
        rw [List.any_eq_true]
        exact ⟨i, hi, by simpa using hni⟩
      simp only [true_iff]
      refine Or.inr (Or.inl ?_)
      intro hall
      push_neg at hsub
      rcases hsub with ⟨i, hi, hni⟩
      exact hni ((hall i).mp hi)
  · rw [if_pos (by simp [hlen])]
    simp only [true_iff]
    exact Or.inl hlen

/-- A broadcast cycle never changes the timer flag or the client count. -/
theorem fetchAndBroadcast_preserves (s : ServiceState) (fr : FetchResult)
    (now : Int) :
    (fetchAndBroadcastLiveCalls s fr now).1.pollActive = s.pollActive ∧
    (fetchAndBroadcastLiveCalls s fr now).1.connectedClients
      = s.connectedClients := by
  cases fr with
  | ok conversations =>
    unfold fetchAndBroadcastLiveCalls
    by_cases h : hasDataChanged (fetchLiveCalls now conversations)
        s.previousLiveCalls = true
    · simp [h]
    · simp [h]
  | err msg => exact ⟨rfl, rfl⟩

/-- The per-client send never changes the service state. -/
theorem sendLiveCallsToClient_fst (s : ServiceState) (fr : FetchResult)
    (now : Int) : (sendLiveCallsToClient s fr now).1 = s := by
  cases fr with
  | ok conversations => rfl
  | err msg => rfl

/-- After `startPolling` the timer is always armed, and the client count is
unchanged. -/
theorem startPolling_post (s : ServiceState) (fr : FetchResult) (now : Int) :
    (startPolling s fr now).1.pollActive = true ∧
    (startPolling s fr now).1.connectedClients = s.connectedClients := by
  unfold startPolling
  by_cases h : s.pollActive = true
  · rw [if_pos h]
    exact ⟨h, rfl⟩
  · rw [if_neg h]
    exact ⟨rfl, (fetchAndBroadcast_preserves s fr now).2⟩

/-- The state after a `connect` step: the client count is incremented, and
the timer flag becomes `true` when the new count is 1 and is otherwise
unchanged. -/
theorem step_connect_state (s : ServiceState) (frClient frPoll : FetchResult)
    (now : Int) :
    (step s (.connect frClient frPoll) now).1.connectedClients
        = s.connectedClients + 1 ∧
    (step s (.connect frClient frPoll) now).1.pollActive
        = (if s.connectedClients + 1 = 1 then true else s.pollActive) := by
  dsimp only [step]
  rw [sendLiveCallsToClient_fst]
  by_cases h1 : s.connectedClients + 1 = 1
  · rw [if_pos h1, if_pos h1]
    dsimp only
    have hpost := startPolling_post
      { s with connectedClients := s.connectedClients + 1 } frPoll now
    exact ⟨by rw [hpost.2], hpost.1⟩
  · rw [if_neg h1, if_neg h1]
    rw [sendLiveCallsToClient_fst]
    exact ⟨rfl, rfl⟩

/-- The state after a `disconnect` step: the client count is decremented,
and the timer flag becomes `false` when the new count is 0 and is
otherwise unchanged. -/
theorem step_disconnect_state (s : ServiceState) (now : Int) :
    (step s .disconnect now).1.connectedClients = s.connectedClients - 1 ∧
    (step s .disconnect now).1.pollActive
        = (if s.connectedClients - 1 = 0 then false else s.pollActive) := by
  dsimp only [step]
  by_cases h0 : s.connectedClients - 1 = 0
  · rw [if_pos h0, if_pos h0]
    exact ⟨rfl, rfl⟩
  · rw [if_neg h0, if_neg h0]
    exact ⟨rfl, rfl⟩

/-- The timer invariant is preserved by every enabled step. -/
theorem step_preserves_poll_inv (s : ServiceState) (e : Event) (now : Int)
    (henabled : enabled s e)
    (hinv : s.pollActive = true ↔ 1 ≤ s.connectedClients) :
    ((step s e now).1.pollActive = true ↔
      1 ≤ (step s e now).1.connectedClients) := by
  cases e with
  | connect frClient frPoll =>
    have h := step_connect_state s frClient frPoll now
    rw [h.1, h.2]
    by_cases h1 : s.connectedClients + 1 = 1
    · rw [if_pos h1]
      simp [h1]
    · rw [if_neg h1]
      constructor
      · intro _; omega
      · intro _
        exact hinv.mpr (by omega)
  | disconnect =>
    have h := step_disconnect_state s now
    rw [h.1, h.2]
    by_cases h0 : s.connectedClients - 1 = 0
    · rw [if_pos h0, h0]
      simp
    · rw [if_neg h0]
      constructor
      · intro _; omega
      · intro _
        exact hinv.mpr (by omega)
  | refresh fr =>
    have hpres := fetchAndBroadcast_preserves s fr now
    show ((fetchAndBroadcastLiveCalls s fr now).1.pollActive = true ↔
      1 ≤ (fetchAndBroadcastLiveCalls s fr now).1.connectedClients)
    rw [hpres.1, hpres.2]
    exact hinv
  | tick fr =>
    have hpres := fetchAndBroadcast_preserves s fr now
    show ((fetchAndBroadcastLiveCalls s fr now).1.pollActive = true ↔
      1 ≤ (fetchAndBroadcastLiveCalls s fr now).1.connectedClients)
    rw [hpres.1, hpres.2]
    exact hinv

/-- The timer invariant holds in every reachable state. -/
theorem reachable_poll_inv (s : ServiceState) (h : Reachable s) :
    s.pollActive = true ↔ 1 ≤ s.connectedClients := by
  induction h with
  | init => simp [initialState]
  | step s e now _ henabled ih => exact step_preserves_poll_inv s e now henabled ih

/-- A broadcast cycle either leaves the stored previous snapshot unchanged
or, when the fetch succeeded and the detector reported a change, replaces
it with the freshly built snapshot. -/
theorem fetchAndBroadcast_prev_frame (s : ServiceState) (fr : FetchResult)
    (now : Int) :
    (fetchAndBroadcastLiveCalls s fr now).1.previousLiveCalls
        = s.previousLiveCalls ∨
    ∃ conversations, fr = .ok conversations ∧
      hasDataChanged (fetchLiveCalls now conversations)
        s.previousLiveCalls = true ∧
      (fetchAndBroadcastLiveCalls s fr now).1.previousLiveCalls
        = fetchLiveCalls now conversations := by
  cases fr with
  | ok conversations =>
    by_cases h : hasDataChanged (fetchLiveCalls now conversations)
        s.previousLiveCalls = true
    · refine Or.inr ⟨conversations, rfl, h, ?_⟩
      dsimp only [fetchAndBroadcastLiveCalls]
      rw [if_pos h]
    · refine Or.inl ?_
      dsimp only [fetchAndBroadcastLiveCalls]
      rw [if_neg h]
  | err msg => exact Or.inl rfl

/-! ## The claims -/

/-- C1: an upstream conversation record contributes a `LiveCallRecord` to
the snapshot built by `fetchLiveCalls` iff its status is in the
active-status set, its status is not in the ended-status set, and its age
(`now` minus the derived start time) does not exceed 15 minutes; in
particular every record of every snapshot has an active, non-ended status
and age within the threshold, so no record with an ended status ever
appears in any snapshot. -/
theorem c1_snapshot_membership (now : Int)
    (conversations : List Conversation) (r : LiveCallRecord) :
    (r ∈ fetchLiveCalls now conversations ↔
      ∃ c, c ∈ conversations ∧ isActiveStatus c.status = true ∧
        isEndedStatus c.status = false ∧
        now - (toLiveCallRecord now c).startTime ≤ MAX_CALL_DURATION_MS ∧
        r = toLiveCallRecord now c) ∧
    (r ∈ fetchLiveCalls now conversations →
      isActiveStatus r.status = true ∧ isEndedStatus r.status = false ∧
        now - r.startTime ≤ MAX_CALL_DURATION_MS) := by
  constructor
  · rw [mem_fetchLiveCalls]
    constructor
    · rintro ⟨⟨c, hc, hshow, hcr⟩, hage⟩
      have hact : isActiveStatus c.status = true ∧
          isEndedStatus c.status = false := by
        simpa [shouldShow] using hshow
      refine ⟨c, hc, hact.1, hact.2, ?_, hcr.symm⟩
      rw [hcr]
      exact hage
    · rintro ⟨c, hc, hact, hend, hage, hr⟩
      refine ⟨⟨c, hc, by simp [shouldShow, hact, hend], hr.symm⟩, ?_⟩
      rw [hr]
      exact hage
  · intro hmem
    rw [mem_fetchLiveCalls] at hmem
    obtain ⟨⟨c, hc, hshow, hcr⟩, hage⟩ := hmem
    have hact : isActiveStatus c.status = true ∧
        isEndedStatus c.status = false := by
      simpa [shouldShow] using hshow
    have hst : r.status = c.status := by
      rw [← hcr]
      exact toLiveCallRecord_status now c
    exact ⟨by rw [hst]; exact hact.1, by rw [hst]; exact hact.2, hage⟩

/-- Witness for C1 at a concrete input: the sample in-progress conversation
contributes a record to the snapshot built at 2000 ms, and that record's
status and age satisfy the guarantees. -/
theorem c1_snapshot_membership_witness :
    isActiveStatus (toLiveCallRecord 2000 sampleConv).status = true ∧
    isEndedStatus (toLiveCallRecord 2000 sampleConv).status = false ∧
    2000 - (toLiveCallRecord 2000 sampleConv).startTime
      ≤ MAX_CALL_DURATION_MS :=
  (c1_snapshot_membership 2000 [sampleConv]
    (toLiveCallRecord 2000 sampleConv)).2 (by decide)

/-- C2: for snapshots satisfying the data-model invariant that ids are
unique within a snapshot, the change detector returns `true` iff the
lengths differ, or the id-sets differ in membership (hence also whenever
they differ in size), or some id present in both has different statuses.
It is a total Lean function into `Bool`, hence pure and never-failing by
construction. -/
theorem c2_change_detector_iff (next prev : List LiveCallRecord)
    (hn : (next.map (fun c => c.id)).Nodup)
    (hp : (prev.map (fun c => c.id)).Nodup) :
    hasDataChanged next prev = true ↔
      (next.length ≠ prev.length ∨
       ¬(∀ i : String, i ∈ next.map (fun c => c.id) ↔
          i ∈ prev.map (fun c => c.id)) ∨
       ∃ nc, nc ∈ next ∧ ∃ pc, pc ∈ prev ∧ pc.id = nc.id ∧
         pc.status ≠ nc.status) :=
  hasDataChanged_true_iff next prev hn hp

/-- Witness for C2 at a concrete input: a one-record snapshot against an
empty previous snapshot. -/
theorem c2_change_detector_iff_witness :
    hasDataChanged [rec1] [] = true ↔
      (([rec1] : List LiveCallRecord).length
          ≠ ([] : List LiveCallRecord).length ∨
       ¬(∀ i : String, i ∈ ([rec1] : List LiveCallRecord).map (fun c => c.id) ↔
          i ∈ ([] : List LiveCallRecord).map (fun c => c.id)) ∨
       ∃ nc, nc ∈ ([rec1] : List LiveCallRecord) ∧
        ∃ pc, pc ∈ ([] : List LiveCallRecord) ∧ pc.id = nc.id ∧
         pc.status ≠ nc.status) :=
  c2_change_detector_iff [rec1] [] (by decide) (by decide)

/-- C3: under the unique-id snapshot invariant, comparing a snapshot with
an identical copy reports no change, and more generally two snapshots with
the same length, the same id membership and the same per-id statuses —
in particular ones differing only in the `duration`/`startTime` fields —
report no change. -/
theorem c3_detector_no_false_change :
    (∀ S : List LiveCallRecord, (S.map (fun c => c.id)).Nodup →
      hasDataChanged S S = false) ∧
    (∀ next prev : List LiveCallRecord,
      (next.map (fun c => c.id)).Nodup →
      (prev.map (fun c => c.id)).Nodup →
      next.length = prev.length →
      (∀ i : String, i ∈ next.map (fun c => c.id) ↔
        i ∈ prev.map (fun c => c.id)) →
      (∀ nc, nc ∈ next → ∀ pc, pc ∈ prev → pc.id = nc.id →
        pc.status = nc.status) →
      hasDataChanged next prev = false) := by
  have key : ∀ next prev : List LiveCallRecord,
      (next.map (fun c => c.id)).Nodup →
      (prev.map (fun c => c.id)).Nodup →
      next.length = prev.length →
      (∀ i : String, i ∈ next.map (fun c => c.id) ↔
        i ∈ prev.map (fun c => c.id)) →
      (∀ nc, nc ∈ next → ∀ pc, pc ∈ prev → pc.id = nc.id →
        pc.status = nc.status) →
      hasDataChanged next prev = false := by
    intro next prev hn hp hlen hiff hstat
    have hnotD : ¬(next.length ≠ prev.length ∨
        ¬(∀ i : String, i ∈ next.map (fun c => c.id) ↔
          i ∈ prev.map (fun c => c.id)) ∨
        ∃ nc, nc ∈ next ∧ ∃ pc, pc ∈ prev ∧ pc.id = nc.id ∧
          pc.status ≠ nc.status) := by
      rintro (h | h | ⟨nc, hnc, pc, hpc, hid, hst⟩)
      · exact h hlen
      · exact h hiff
      · exact hst (hstat nc hnc pc hpc hid)
    cases hb : hasDataChanged next prev with
    | true =>
      exact absurd ((hasDataChanged_true_iff next prev hn hp).mp hb) hnotD
    | false => rfl
  constructor
  · intro S hS
    refine key S S hS hS rfl (fun i => Iff.rfl) ?_
    intro nc hnc pc hpc hid
    rw [nodup_map_inj (fun c => c.id) S hS pc hpc nc hnc hid]
  · exact key

/-- Witness for C3 at concrete inputs: a snapshot against itself, and
against a copy whose only differences are the timing fields. -/
theorem c3_detector_no_false_change_witness :
    hasDataChanged [rec1] [rec1] = false ∧
    hasDataChanged [rec1Timing] [rec1] = false :=
  ⟨c3_detector_no_false_change.1 [rec1] (by decide),
   c3_detector_no_false_change.2 [rec1Timing] [rec1] (by decide) (by decide)
     rfl (fun i => Iff.rfl)
     (by
       intro nc hnc pc hpc hid
       rw [List.mem_singleton.mp hnc, List.mem_singleton.mp hpc]
       rfl)⟩

/-- Counterexample to C4: `fetchLiveCalls` makes no attempt to clamp a
negative difference, and the staleness filter only removes records whose
age exceeds the threshold, so a conversation whose upstream start time lies
in the future of the snapshot-build instant yields a record with strictly
negative `duration` inside the snapshot. -/
theorem c4_duration_nonneg_cex :
    ∃ r, r ∈ fetchLiveCalls 0 [futureConv] ∧ r.duration < 0 :=
  ⟨toLiveCallRecord 0 futureConv, by decide, by decide⟩

/-- C4 (amended): every record of a snapshot has
`duration = ⌊(now − startTime) / 1000⌋`, and `duration ≥ 0` whenever its
derived start time is not later than the snapshot-build time; when the two
upstream epoch-seconds start-time fields are both absent, the start time
falls back to the snapshot-build time and the duration is 0 on that
poll. -/
theorem c4_duration_amended :
    (∀ (now : Int) (conversations : List Conversation) (r : LiveCallRecord),
      r ∈ fetchLiveCalls now conversations →
        r.duration = (now - r.startTime).fdiv 1000 ∧
        (r.startTime ≤ now → 0 ≤ r.duration)) ∧
    (∀ (now : Int) (c : Conversation),
      c.start_time_unix_secs = none →
      c.metadata_start_time_unix_secs = none →
        (toLiveCallRecord now c).startTime = now ∧
        (toLiveCallRecord now c).duration = 0) := by
  constructor
  · intro now conversations r hmem
    rw [mem_fetchLiveCalls] at hmem
    obtain ⟨⟨c, hc, hshow, hcr⟩, hage⟩ := hmem
    have hdur : r.duration = (now - r.startTime).fdiv 1000 := by
      rw [← hcr]
      rfl
    refine ⟨hdur, ?_⟩
    intro hle
    rw [hdur]
    exact Int.fdiv_nonneg (by omega) (by norm_num)
  · intro now c h1 h2
    constructor
    · show (toLiveCallRecord now c).startTime = now
      simp [toLiveCallRecord, truthyInt, h1, h2, Option.orElse]
    · show (toLiveCallRecord now c).duration = 0
      simp [toLiveCallRecord, truthyInt, h1, h2, Option.orElse]

/-- Witness for C4 (amended) at concrete inputs: the sample in-progress
record built at 2000 ms, and the start-time fallback for a conversation
with both start fields absent at 5000 ms. -/
theorem c4_duration_amended_witness :
    ((toLiveCallRecord 2000 sampleConv).duration
        = (2000 - (toLiveCallRecord 2000 sampleConv).startTime).fdiv 1000 ∧
     ((toLiveCallRecord 2000 sampleConv).startTime ≤ 2000 →
        0 ≤ (toLiveCallRecord 2000 sampleConv).duration)) ∧
    ((toLiveCallRecord 5000 noStartConv).startTime = 5000 ∧
     (toLiveCallRecord 5000 noStartConv).duration = 0) :=
  ⟨c4_duration_amended.1 2000 [sampleConv] (toLiveCallRecord 2000 sampleConv)
     (by decide),
   c4_duration_amended.2 5000 noStartConv rfl rfl⟩

/-- C5: in every reachable state the poll timer is armed iff at least one
client is connected; the 0→1 connect transition arms the timer after
running one immediate build+detect+broadcast cycle (its emissions follow
the per-client send), the 1→0 disconnect transition cancels the timer, and
while the count is 0 no timer tick is enabled. -/
theorem c5_poll_timer_iff_clients :
    (∀ s : ServiceState, Reachable s →
      (s.pollActive = true ↔ 1 ≤ s.connectedClients)) ∧
    (∀ (s : ServiceState) (frClient frPoll : FetchResult) (now : Int),
      s.connectedClients = 0 → s.pollActive = false →
        (step s (.connect frClient frPoll) now).1
          = { (fetchAndBroadcastLiveCalls
                { s with connectedClients := 1 } frPoll now).1 with
              pollActive := true } ∧
        (step s (.connect frClient frPoll) now).2
          = (sendLiveCallsToClient
              { s with connectedClients := 1 } frClient now).2
            ++ (fetchAndBroadcastLiveCalls
                { s with connectedClients := 1 } frPoll now).2) ∧
    (∀ (s : ServiceState) (now : Int), s.connectedClients = 1 →
      (step s .disconnect now).1.pollActive = false) ∧
    (∀ (s : ServiceState) (fr : FetchResult), Reachable s →
      s.connectedClients = 0 → ¬ enabled s (.tick fr)) := by
  refine ⟨reachable_poll_inv, ?_, ?_, ?_⟩
  · intro s frClient frPoll now h0 hpa
    have hs1 : ({ s with connectedClients := s.connectedClients + 1 } :
        ServiceState) = { s with connectedClients := 1 } := by
      rw [h0]
    dsimp only [step]
    rw [sendLiveCallsToClient_fst, hs1]
    rw [if_pos (show ({ s with connectedClients := 1 } :
      ServiceState).connectedClients = 1 from rfl)]
    dsimp only [startPolling]
    rw [if_neg (show ¬({ s with connectedClients := 1 } :
      ServiceState).pollActive = true by
        show ¬s.pollActive = true
        rw [hpa]
        exact Bool.false_ne_true)]
    exact ⟨rfl, rfl⟩
  · intro s now h1
    have h := step_disconnect_state s now
    rw [h.2, h1]
    rfl
  · intro s fr hreach h0 htick
    have hge : 1 ≤ s.connectedClients :=
      (reachable_poll_inv s hreach).mp htick
    omega

/-- Witness for C5 at concrete inputs: the invariant at the initial state,
the 0→1 transition from the initial state with failing fetches, the 1→0
transition from a one-client polling state, and the tick disabledness at
the initial state. -/
theorem c5_poll_timer_iff_clients_witness :
    (initialState.pollActive = true ↔ 1 ≤ initialState.connectedClients) ∧
    ((step initialState (.connect (.err "e") (.err "e")) 0).1
        = { (fetchAndBroadcastLiveCalls
              { initialState with connectedClients := 1 } (.err "e") 0).1 with
            pollActive := true } ∧
     (step initialState (.connect (.err "e") (.err "e")) 0).2
        = (sendLiveCallsToClient
            { initialState with connectedClients := 1 } (.err "e") 0).2
          ++ (fetchAndBroadcastLiveCalls
              { initialState with connectedClients := 1 } (.err "e") 0).2) ∧
    (step ⟨true, 1, []⟩ .disconnect 0).1.pollActive = false ∧
    ¬ enabled initialState (.tick (.err "e")) :=
  ⟨c5_poll_timer_iff_clients.1 initialState Reachable.init,
   c5_poll_timer_iff_clients.2.1 initialState (.err "e") (.err "e") 0 rfl rfl,
   c5_poll_timer_iff_clients.2.2.1 ⟨true, 1, []⟩ 0 rfl,
   c5_poll_timer_iff_clients.2.2.2 initialState (.err "e") Reachable.init rfl⟩

/-- C6: a scheduled tick whose upstream fetch fails broadcasts a
`live-calls-error` event carrying the error message to all clients, emits
no `live-calls-update`, leaves the whole state — in particular the stored
previous snapshot — intact, and leaves the timer armed so the next tick
proceeds normally. -/
theorem c6_tick_failure (s : ServiceState) (msg : String) (now : Int)
    (h : s.pollActive = true) :
    step s (.tick (.err msg)) now = (s, [Emit.errorBroadcast msg]) ∧
    (∀ snapshot, Emit.updateBroadcast snapshot
      ∉ (step s (.tick (.err msg)) now).2) ∧
    (step s (.tick (.err msg)) now).1.previousLiveCalls
      = s.previousLiveCalls ∧
    enabled (step s (.tick (.err msg)) now).1 (.tick (.err msg)) := by
  refine ⟨rfl, ?_, rfl, h⟩
  intro snapshot hmem
  have hout : (step s (.tick (.err msg)) now).2
      = [Emit.errorBroadcast msg] := rfl
  rw [hout] at hmem
  rcases List.mem_singleton.mp hmem with h'
  cases h'

/-- Witness for C6 at a concrete input: a one-client polling state whose
tick fetch fails with message "down". -/
theorem c6_tick_failure_witness :
    step ⟨true, 1, []⟩ (.tick (.err "down")) 0
        = ((⟨true, 1, []⟩ : ServiceState), [Emit.errorBroadcast "down"]) ∧
    (∀ snapshot, Emit.updateBroadcast snapshot
      ∉ (step ⟨true, 1, []⟩ (.tick (.err "down")) 0).2) ∧
    (step ⟨true, 1, []⟩ (.tick (.err "down")) 0).1.previousLiveCalls
      = (⟨true, 1, []⟩ : ServiceState).previousLiveCalls ∧
    enabled (step ⟨true, 1, []⟩ (.tick (.err "down")) 0).1
      (.tick (.err "down")) :=
  c6_tick_failure ⟨true, 1, []⟩ "down" 0 rfl

/-- C7: on every new client connection a fresh snapshot is built and sent
as a `live-calls-update` to that client alone (a client-targeted emission,
first in the handler's output), for every stored previous snapshot and so
independently of the change detector's verdict; if the build fails, that
client instead receives a client-targeted `live-calls-error`. -/
theorem c7_connect_send (s : ServiceState)
    (conversations : List Conversation) (msg : String)
    (frPoll : FetchResult) (now : Int) :
    (∃ rest, (step s (.connect (.ok conversations) frPoll) now).2
        = Emit.updateToClient (fetchLiveCalls now conversations) :: rest) ∧
    (∃ rest, (step s (.connect (.err msg) frPoll) now).2
        = Emit.errorToClient msg :: rest) := by
  constructor
  · dsimp only [step]
    rw [sendLiveCallsToClient_fst]
    by_cases h1 : ({ s with connectedClients := s.connectedClients + 1 } :
        ServiceState).connectedClients = 1
    · rw [if_pos h1]
      exact ⟨_, rfl⟩
    · rw [if_neg h1]
      exact ⟨[], rfl⟩
  · dsimp only [step]
    rw [sendLiveCallsToClient_fst]
    by_cases h1 : ({ s with connectedClients := s.connectedClients + 1 } :
        ServiceState).connectedClients = 1
    · rw [if_pos h1]
      exact ⟨_, rfl⟩
    · rw [if_neg h1]
      exact ⟨[], rfl⟩

/-- Counterexample to C8: a manual refresh whose build succeeds but whose
snapshot the detector finds unchanged (empty fetched list against an empty
stored previous snapshot, one client connected) emits nothing at all — no
`live-calls-update` is sent after this successful refresh cycle,
contradicting the claim that an update always follows a manual refresh. -/
theorem c8_refresh_no_update_cex :
    (step ⟨true, 1, []⟩ (.refresh (.ok [])) 0).2 = [] ∧
    Emit.updateBroadcast (fetchLiveCalls 0 [])
      ∉ (step ⟨true, 1, []⟩ (.refresh (.ok [])) 0).2 := by
  exact ⟨rfl, by intro h; cases h⟩

/-- C8 (amended): a manual refresh whose build succeeds always runs the
snapshot builder (independent of the timer), but broadcasts the fresh
snapshot as a `live-calls-update` iff the change detector reports a change
against the stored previous snapshot. -/
theorem c8_refresh_amended (s : ServiceState)
    (conversations : List Conversation) (now : Int) :
    (step s (.refresh (.ok conversations)) now).2
      = (if hasDataChanged (fetchLiveCalls now conversations)
            s.previousLiveCalls = true
         then [Emit.updateBroadcast (fetchLiveCalls now conversations)]
         else []) := by
  dsimp only [step, fetchAndBroadcastLiveCalls]
  by_cases h : hasDataChanged (fetchLiveCalls now conversations)
      s.previousLiveCalls = true
  · rw [if_pos h, if_pos h]
  · rw [if_neg h, if_neg h]

/-- Counterexample to C9: with two clients connected, a manual refresh
whose fetch fails emits the error on the all-client broadcast channel
(`io.emit`), and no client-targeted error is sent — so every connected
client receives the failure, not only the requesting one. -/
theorem c9_refresh_error_only_caller_cex :
    (step ⟨true, 2, []⟩ (.refresh (.err "boom")) 0).2
        = [Emit.errorBroadcast "boom"] ∧
    Emit.errorToClient "boom"
      ∉ (step ⟨true, 2, []⟩ (.refresh (.err "boom")) 0).2 := by
  refine ⟨rfl, ?_⟩
  intro hmem
  have hout : (step (⟨true, 2, []⟩ : ServiceState)
      (.refresh (.err "boom")) 0).2 = [Emit.errorBroadcast "boom"] := rfl
  rw [hout] at hmem
  rcases List.mem_singleton.mp hmem with h'
  cases h'

/-- C9 (amended): a manual refresh whose upstream fetch fails reports the
failure to all connected clients through a broadcast `live-calls-error`
event — the same path as a failing scheduled tick — and leaves the state
unchanged. -/
theorem c9_refresh_error_amended (s : ServiceState) (msg : String)
    (now : Int) :
    step s (.refresh (.err msg)) now = (s, [Emit.errorBroadcast msg]) := rfl

/-- C10: the stored previous snapshot is replaced only by a
build+detect+broadcast cycle whose detector reports a change; a cycle with
no detected change, a cycle whose build fails, and the per-client
connect-time send all leave it unchanged — and across every service event
the previous snapshot either stays unchanged or becomes the
change-detected fresh snapshot. -/
theorem c10_previous_snapshot_frame :
    (∀ (s : ServiceState) (fr : FetchResult) (now : Int),
      (fetchAndBroadcastLiveCalls s fr now).1.previousLiveCalls
          = s.previousLiveCalls ∨
      ∃ conversations, fr = .ok conversations ∧
        hasDataChanged (fetchLiveCalls now conversations)
          s.previousLiveCalls = true ∧
        (fetchAndBroadcastLiveCalls s fr now).1.previousLiveCalls
          = fetchLiveCalls now conversations) ∧
    (∀ (s : ServiceState) (conversations : List Conversation) (now : Int),
      hasDataChanged (fetchLiveCalls now conversations)
        s.previousLiveCalls = false →
      (fetchAndBroadcastLiveCalls s (.ok conversations) now).1 = s) ∧
    (∀ (s : ServiceState) (msg : String) (now : Int),
      (fetchAndBroadcastLiveCalls s (.err msg) now).1 = s) ∧
    (∀ (s : ServiceState) (fr : FetchResult) (now : Int),
      (sendLiveCallsToClient s fr now).1 = s) ∧
    (∀ (s : ServiceState) (e : Event) (now : Int),
      (step s e now).1.previousLiveCalls = s.previousLiveCalls ∨
      ∃ conversations,
        hasDataChanged (fetchLiveCalls now conversations)
          s.previousLiveCalls = true ∧
        (step s e now).1.previousLiveCalls
          = fetchLiveCalls now conversations) := by
  refine ⟨fetchAndBroadcast_prev_frame, ?_, ?_, sendLiveCallsToClient_fst, ?_⟩
  · intro s conversations now h
    dsimp only [fetchAndBroadcastLiveCalls]
    rw [if_neg (by rw [h]; exact Bool.false_ne_true)]
  · intro s msg now
    rfl
  · intro s e now
    cases e with
    | connect frClient frPoll =>
      dsimp only [step]
      rw [sendLiveCallsToClient_fst]
      by_cases h1 : ({ s with connectedClients := s.connectedClients + 1 } :
          ServiceState).connectedClients = 1
      · rw [if_pos h1]
        dsimp only [startPolling]
        by_cases hpa : ({ s with connectedClients := s.connectedClients + 1 } :
            ServiceState).pollActive = true
        · rw [if_pos hpa]
          exact Or.inl rfl
        · rw [if_neg hpa]
          rcases fetchAndBroadcast_prev_frame
              { s with connectedClients := s.connectedClients + 1 } frPoll
              now with hsame | ⟨conversations, _, hch, hrepl⟩
          · exact Or.inl hsame
          · exact Or.inr ⟨conversations, hch, hrepl⟩
      · rw [if_neg h1]
        rw [sendLiveCallsToClient_fst]
        exact Or.inl rfl
    | disconnect =>
      dsimp only [step]
      by_cases h0 : ({ s with connectedClients := s.connectedClients - 1 } :
          ServiceState).connectedClients = 0
      · rw [if_pos h0]
        exact Or.inl rfl
      · rw [if_neg h0]
        exact Or.inl rfl
    | refresh fr =>
      rcases fetchAndBroadcast_prev_frame s fr now with
        hsame | ⟨conversations, _, hch, hrepl⟩
      · exact Or.inl hsame
      · exact Or.inr ⟨conversations, hch, hrepl⟩
    | tick fr =>
      rcases fetchAndBroadcast_prev_frame s fr now with
        hsame | ⟨conversations, _, hch, hrepl⟩
      · exact Or.inl hsame
      · exact Or.inr ⟨conversations, hch, hrepl⟩

/-- Witness for C10 at a concrete input: an unchanged successful cycle
from a one-client polling state with an empty stored snapshot leaves the
state intact. -/
theorem c10_previous_snapshot_frame_witness :
    (fetchAndBroadcastLiveCalls ⟨true, 1, []⟩ (.ok []) 0).1
      = (⟨true, 1, []⟩ : ServiceState) :=
  c10_previous_snapshot_frame.2.1 ⟨true, 1, []⟩ [] 0 (by decide)

end LiveCalls
